import Mathlib

/-!
Verification development for the energy-consumption acquisition pipeline
(`src/source/data_handler.py` together with the statistics block of
`src/source/main.py`).

The embedding models a pandas `DataFrame` as a list of column names plus a
list of rows, where each row is an association list from column name to cell.
Cells are either a null marker (NaN / NaT), an exact number (modelling the
floating-point numbers of the source by rationals), a string, or a parsed
date-time value (modelled by an integer encoding that is monotone in the
calendar order).
-/

namespace Acquisition

/-- One value held by a `DataFrame` cell: the null marker (NaN / NaT), a
number, a string, or a parsed date-time. -/
inductive Cell where
  | null : Cell
  | num (q : ℚ) : Cell
  | str (s : String) : Cell
  | dt (t : ℤ) : Cell
deriving DecidableEq, Repr

/-- Numeric value of a digit character. -/
def digitVal (c : Char) : ℕ := c.toNat - 48

/-- Value of a digit string read as a natural number. -/
def natOfDigits (cs : List Char) : ℕ := cs.foldl (fun a c => 10 * a + digitVal c) 0

/-- Value of a digit string read as the fractional part after a decimal point. -/
def fracOfDigits (cs : List Char) : ℚ := cs.foldr (fun c a => ((digitVal c : ℚ) + a) / 10) 0

/-- Model of the numeric-string parsing performed by `pd.to_numeric`
(data_handler.py line 89): an optional sign, a non-empty run of digits, and an
optional fractional part. -/
def parseNumber (s : String) : Option ℚ :=
  let signed : ℚ × List Char :=
    match s.toList with
    | '-' :: rest => (-1, rest)
    | '+' :: rest => (1, rest)
    | cs => (1, cs)
  let ip := signed.2.takeWhile Char.isDigit
  let rest := signed.2.dropWhile Char.isDigit
  if ip.isEmpty then none
  else
    match rest with
    | [] => some (signed.1 * (natOfDigits ip : ℚ))
    | '.' :: fr =>
        if fr.all Char.isDigit then
          some (signed.1 * ((natOfDigits ip : ℚ) + fracOfDigits fr))
        else none
    | _ => none

/-- Model of the timestamp parsing performed by `pd.to_datetime`
(data_handler.py line 78), restricted to the ISO shape `YYYY-MM-DDTHH:MM:SS`
carried by the `date_heure` field; the result is a mixed-radix integer
encoding that is monotone in the calendar order. -/
def parseDateTime (s : String) : Option ℤ :=
  match s.toList with
  | [y1, y2, y3, y4, '-', m1, m2, '-', d1, d2, 'T', h1, h2, ':', n1, n2, ':', s1, s2] =>
      if ([y1, y2, y3, y4, m1, m2, d1, d2, h1, h2, n1, n2, s1, s2].all Char.isDigit) then
        let y := natOfDigits [y1, y2, y3, y4]
        let mo := natOfDigits [m1, m2]
        let d := natOfDigits [d1, d2]
        let h := natOfDigits [h1, h2]
        let mi := natOfDigits [n1, n2]
        let sec := natOfDigits [s1, s2]
        if 1 ≤ mo ∧ mo ≤ 12 ∧ 1 ≤ d ∧ d ≤ 31 ∧ h < 24 ∧ mi < 60 ∧ sec < 60 then
          some ((((((y * 12 + (mo - 1)) * 31 + (d - 1)) * 24 + h) * 60 + mi) * 60 + sec : ℕ) : ℤ)
        else none
      else none
  | _ => none

/-- Model of `pd.to_datetime(col, errors='coerce')` on one cell
(data_handler.py line 78): strings are parsed (an unparsable string becomes
the null marker NaT), numbers are read as epoch offsets, date-times and nulls
are unchanged. -/
def toDatetimeCell : Cell → Cell
  | .str s =>
      match parseDateTime s with
      | some t => .dt t
      | none => .null
  | .num q => .dt q.floor
  | .dt t => .dt t
  | .null => .null

/-- Model of `pd.to_numeric(col, errors='coerce').fillna(0)` on one cell
(data_handler.py line 89): numbers are kept, numeric strings are coerced,
unparsable strings and nulls become zero, date-times are read as their
integer encoding. -/
def toNumericFillCell : Cell → Cell
  | .num q => .num q
  | .str s =>
      match parseNumber s with
      | some q => .num q
      | none => .num 0
  | .dt t => .num (t : ℚ)
  | .null => .num 0

/-- A row of the frame: an association list from column name to cell.  A raw
record (one JSON object of the `results` array) has the same shape. -/
abbrev Row := List (String × Cell)

/-- The in-memory table: the column names plus the rows, each row keyed by
column name. -/
structure DataFrame where
  cols : List String
  rows : List Row
deriving DecidableEq, Repr

/-- The frame `pd.DataFrame()` starts from (data_handler.py line 23). -/
def DataFrame.empty : DataFrame := ⟨[], []⟩

/-- Model of the pandas `DataFrame.empty` test: true when either axis has
length zero. -/
def DataFrame.isEmpty (df : DataFrame) : Bool := df.rows.isEmpty || df.cols.isEmpty

/-- Cell of a row at a column name; a missing key reads as the null marker. -/
def getCell (row : Row) (c : String) : Cell := (row.lookup c).getD .null

/-- Keys of one raw record. -/
def recordKeys (r : Row) : List String := r.map Prod.fst

/-- Keys of all records, concatenated in order. -/
def allKeys : List Row → List String
  | [] => []
  | r :: rs => recordKeys r ++ allKeys rs

/-- First occurrence of each name, in order of first appearance. -/
def dedupFirst (l : List String) : List String :=
  l.foldl (fun acc k => if k ∈ acc then acc else acc ++ [k]) []

/-- Column set `pd.DataFrame` derives from a list of dicts: the union of the
record keys in order of first appearance. -/
def unionKeys (records : List Row) : List String := dedupFirst (allKeys records)

/-- Model of `pd.DataFrame(data['results'])` (data_handler.py line 53): one
row per record, aligned on the union of the keys, a key missing from a record
reading as NaN. -/
def toDataFrame (records : List Row) : DataFrame :=
  let cols := unionKeys records
  ⟨cols, records.map (fun r => cols.map (fun c => (c, getCell r c)))⟩

/-- Transform the cell stored under one key of a row. -/
def mapRowAt (c : String) (f : Cell → Cell) (row : Row) : Row :=
  row.map (fun kv => if kv.1 = c then (kv.1, f kv.2) else kv)

/-- Model of assigning a transformed column back into the frame
(`df[col] = ...` on an existing column). -/
def mapCol (df : DataFrame) (c : String) (f : Cell → Cell) : DataFrame :=
  ⟨df.cols, df.rows.map (mapRowAt c f)⟩

/-- Model of `df[col] = v` creating a new column holding the scalar `v` on
every row (data_handler.py line 92). -/
def addCol (df : DataFrame) (c : String) (v : Cell) : DataFrame :=
  ⟨df.cols ++ [c], df.rows.map (fun r => r ++ [(c, v)])⟩

/-- Sort key of a row: its parsed timestamp, none for the null marker or any
unparsed value. -/
def rowKey (c : String) (row : Row) : Option ℤ :=
  match getCell row c with
  | .dt t => some t
  | _ => none

/-- Ordering on sort keys: ascending, with the null marker placed last
(the `na_position='last'` default of `sort_values`). -/
def keyLE : Option ℤ → Option ℤ → Bool
  | none, none => true
  | none, some _ => false
  | some _, none => true
  | some x, some y => x ≤ y

/-- Row ordering used by the sort step. -/
def rowLE (c : String) (r1 r2 : Row) : Prop := keyLE (rowKey c r1) (rowKey c r2) = true

instance (c : String) : DecidableRel (rowLE c) := fun _ _ => instDecidableEqBool _ _

instance (c : String) : IsTotal Row (rowLE c) :=
  ⟨fun a b => by
    unfold rowLE
    cases rowKey c a <;> cases rowKey c b <;> simp [keyLE] <;> omega⟩

instance (c : String) : IsTrans Row (rowLE c) :=
  ⟨fun a b d h1 h2 => by
    unfold rowLE at h1 h2 ⊢
    revert h1 h2
    cases rowKey c a <;> cases rowKey c b <;> cases rowKey c d <;>
      simp [keyLE] <;> omega⟩

/-- Model of `DataFrame.sort_values('date_heure')` (data_handler.py line 79):
rows reordered ascending by the key column, nulls last. -/
def sortByCol (df : DataFrame) (c : String) : DataFrame :=
  ⟨df.cols, df.rows.insertionSort (rowLE c)⟩

/-- The five expected consumption columns (data_handler.py lines 81-85). -/
def consumption_cols : List String :=
  ["consommation_brute_gaz_grtgaz", "consommation_brute_gaz_terega",
   "consommation_brute_gaz_totale", "consommation_brute_electricite_rte",
   "consommation_brute_totale"]

/-- One iteration of the consumption-column loop (data_handler.py lines
86-92): coerce-and-fill an existing column, or synthesize a missing one with
zero on every row. -/
def processCol (df : DataFrame) (c : String) : DataFrame :=
  if c ∈ df.cols then mapCol df c toNumericFillCell else addCol df c (.num 0)

/-- Model of `DataHandler._process_data` (data_handler.py lines 66-94): an
empty frame is returned untouched; otherwise the timestamp column, when
present, is parsed and the rows sorted by it, and then each expected
consumption column is coerced-and-zero-filled or synthesized. -/
def process_data (df : DataFrame) : DataFrame :=
  if df.isEmpty then df
  else
    let df1 :=
      if "date_heure" ∈ df.cols then
        sortByCol (mapCol df "date_heure" toDatetimeCell) "date_heure"
      else df
    consumption_cols.foldl processCol df1

/-- The raw records of a fetch fed through normalization. -/
def normalize (records : List Row) : DataFrame := process_data (toDataFrame records)

/-- The two exception families distinguished by the handlers of
`fetch_data_from_api` (data_handler.py lines 57-64):
`requests.exceptions.RequestException` and every other `Exception`. -/
inductive PyExc where
  | requestException (cause : String) : PyExc
  | otherException (cause : String) : PyExc
deriving DecidableEq, Repr

/-- Behaviour of one invocation of the fetch body as seen from the handler:
either some statement of the try block raised an exception, or the parsed
JSON envelope was reached, carrying its `results` array when the key is
present. -/
inductive FetchEnv where
  | raises (e : PyExc) : FetchEnv
  | returns (results : Option (List Row)) : FetchEnv
deriving DecidableEq, Repr

/-- Observable outcome of one fetch invocation: the boolean returned, the
dataframe the handler holds afterwards, and the console message printed. -/
structure FetchResult where
  retVal : Bool
  dataframe : DataFrame
  consoleMsg : String
deriving DecidableEq, Repr

/-- The try block of `fetch_data_from_api` (data_handler.py lines 43-56): an
exception escapes the block as an `error`; otherwise a missing or empty
`results` array empties the frame and returns false, and a non-empty one
replaces the frame by the processed records and returns true. -/
def fetchBody (env : FetchEnv) : Except PyExc FetchResult :=
  match env with
  | .raises e => .error e
  | .returns none =>
      .ok ⟨false, DataFrame.empty, "No results found in API response."⟩
  | .returns (some []) =>
      .ok ⟨false, DataFrame.empty, "No results found in API response."⟩
  | .returns (some (r :: rs)) =>
      .ok ⟨true, process_data (toDataFrame (r :: rs)), "Data fetched successfully."⟩

/-- Console message of each handler branch (data_handler.py lines 58 and 62). -/
def excMsg : PyExc → String
  | .requestException c => "Error fetching data from API: " ++ c
  | .otherException c => "An unexpected error occurred during API fetch: " ++ c

/-- Model of `DataHandler.fetch_data_from_api` (data_handler.py lines 26-64):
the try block wrapped in the two exception handlers, each of which empties
the frame and returns false.  `st` is the dataframe held before the call. -/
def fetch_data_from_api (st : DataFrame) (env : FetchEnv) : FetchResult :=
  match fetchBody env with
  | .ok r => r
  | .error (.requestException c) => ⟨false, DataFrame.empty, excMsg (.requestException c)⟩
  | .error (.otherException c) => ⟨false, DataFrame.empty, excMsg (.otherException c)⟩

/-- Model of `DataHandler.export_to_csv` (data_handler.py lines 118-138).
`fs` is the outcome of the filesystem write: `ok`, or the message of the
exception it raised.  The result is the boolean returned together with the
console message printed. -/
def export_to_csv (df : DataFrame) (filepath : String) (fs : Except String Unit) : Bool × String :=
  if df.isEmpty then (false, "No data to export.")
  else
    match fs with
    | .ok _ => (true, "Data exported successfully to " ++ filepath)
    | .error e => (false, "Error exporting data to CSV: " ++ e)

/-- Model of `pandas.Series.sum`. -/
def series_sum (xs : List ℚ) : ℚ := xs.sum

/-- Model of `pandas.Series.mean`: NaN (none) on an empty series. -/
def series_mean (xs : List ℚ) : Option ℚ :=
  if xs.length = 0 then none else some (xs.sum / (xs.length : ℚ))

/-- Model of `pandas.Series.var` at its default `ddof=1`: the sample variance
with denominator N - 1, NaN (none) when fewer than two values are present. -/
def series_var (xs : List ℚ) : Option ℚ :=
  if xs.length < 2 then none
  else
    let m := xs.sum / (xs.length : ℚ)
    some ((xs.map (fun x => (x - m) ^ 2)).sum / ((xs.length : ℚ) - 1))

/-- Model of `pandas.Series.std` at its default `ddof=1`: the square root of
the sample variance, NaN (none) when fewer than two values are present. -/
noncomputable def series_std (xs : List ℚ) : Option ℝ :=
  (series_var xs).map (fun v => Real.sqrt (v : ℝ))

/-- Model of `pandas.Series.max`: NaN (none) on an empty series. -/
def series_max : List ℚ → Option ℚ
  | [] => none
  | x :: rest => some (rest.foldl max x)

/-- Model of `pandas.Series.min`: NaN (none) on an empty series. -/
def series_min : List ℚ → Option ℚ
  | [] => none
  | x :: rest => some (rest.foldl min x)

/-- Numeric reading of one cell; the null marker and non-numeric cells are
skipped, as pandas aggregations skip NaN. -/
def cellNum : Cell → Option ℚ
  | .num q => some q
  | _ => none

/-- The cells of one column, top to bottom. -/
def getCol (df : DataFrame) (c : String) : List Cell := df.rows.map (fun r => getCell r c)

/-- The numeric values of one column, NaN skipped. -/
def colNumValues (df : DataFrame) (c : String) : List ℚ := (getCol df c).filterMap cellNum

/-- Outcome of the statistics block: either the column-not-found condition
with its message, or the five aggregates. -/
inductive StatsOutcome where
  | columnNotFound (msg : String) : StatsOutcome
  | stats (mean : Option ℚ) (std : Option ℝ) (saVar : Option ℚ)
      (max : Option ℚ) (min : Option ℚ) : StatsOutcome

/-- Model of the statistics block of
`MainWindow.handle_fetch_data_and_update_stats` (main.py lines 63-94): the
requested column absent from the schema is surfaced as the column-not-found
condition; otherwise mean, std, variance, max and min of the column are
computed with the pandas defaults. -/
noncomputable def computeStats (df : DataFrame) (c : String) : StatsOutcome :=
  if c ∈ df.cols then
    .stats (series_mean (colNumValues df c)) (series_std (colNumValues df c))
      (series_var (colNumValues df c)) (series_max (colNumValues df c))
      (series_min (colNumValues df c))
  else
    .columnNotFound ("La colonne " ++ c ++ " est introuvable pour le calcul des statistiques.")

/-! ### Invariants of the processing pass -/

/-- Well-formed frame: the keys of every row are exactly the column list, in
order; every frame built by `toDataFrame` is of this shape. -/
def DataFrame.WF (df : DataFrame) : Prop := ∀ row ∈ df.rows, recordKeys row = df.cols

/-- Every entry stored under the timestamp key is already parsed: applying the
date-time coercion again leaves it unchanged. -/
def RowDatesParsed (row : Row) : Prop :=
  ∀ kv ∈ row, kv.1 = "date_heure" → toDatetimeCell kv.2 = kv.2

/-- Every entry stored under the key `q` is already coerced and zero-filled:
applying the numeric coercion again leaves it unchanged. -/
def RowColFilled (q : String) (row : Row) : Prop :=
  ∀ kv ∈ row, kv.1 = q → toNumericFillCell kv.2 = kv.2

/-- State of a non-degenerate frame after one processing pass: well-formed,
timestamps parsed, consumption columns present and filled, rows sorted by the
timestamp key whenever that column exists. -/
structure Processed (df : DataFrame) : Prop where
  wf : df.WF
  datesParsed : ∀ row ∈ df.rows, RowDatesParsed row
  filled : ∀ q ∈ consumption_cols, ∀ row ∈ df.rows, RowColFilled q row
  consumptionPresent : ∀ q ∈ consumption_cols, q ∈ df.cols
  sorted : "date_heure" ∈ df.cols → List.Sorted (rowLE "date_heure") df.rows

/-! ### Concrete sample inputs used by the witnesses -/

/-- The record of the spec's scenario: a timestamp, a total-consumption
reading given as the string "123.5", and every other expected column
missing. -/
def specScenarioRecord : Row :=
  [("date_heure", Cell.str "2024-01-01T00:00:00"),
   ("consommation_brute_totale", Cell.str "123.5")]

/-- Three records whose timestamps arrive out of order, one of them
unparsable. -/
def mixedRecords : List Row :=
  [[("date_heure", Cell.str "zzz")],
   [("date_heure", Cell.str "2024-01-02T00:00:00")],
   [("date_heure", Cell.str "2024-01-01T05:00:00")]]

/-- A one-row frame holding a single column unrelated to the expected ones. -/
def sampleDf : DataFrame := toDataFrame [[("autre", Cell.num 1)]]

/-! ### Lemmas: rows, lookups and keys -/

theorem mem_of_lookup_eq_some {row : Row} {c : String} {v : Cell}
    (h : row.lookup c = some v) : (c, v) ∈ row := by
  induction row with
  | nil => simp at h
  | cons kv rest ih =>
    obtain ⟨k, w⟩ := kv
    by_cases hk : c = k
    · subst hk
      rw [List.lookup_cons_self] at h
      obtain rfl : w = v := by injection h
      exact List.mem_cons_self _ _
    · have hck : (c == k) = false := by simp [hk]
      rw [List.lookup_cons, hck] at h
      exact List.mem_cons_of_mem _ (ih h)

theorem lookup_isSome_of_mem_keys {row : Row} {c : String} (h : c ∈ recordKeys row) :
    ∃ v, row.lookup c = some v := by
  rw [← Option.isSome_iff_exists, List.lookup_isSome_iff]
  simp only [recordKeys, List.mem_map] at h
  obtain ⟨kv, hkv, hk⟩ := h
  exact ⟨kv, hkv, by simp [hk]⟩

theorem lookup_eq_none_of_not_mem_keys {row : Row} {c : String} (h : c ∉ recordKeys row) :
    row.lookup c = none := by
  rw [List.lookup_eq_none_iff]
  intro kv hkv
  simp only [bne_iff_ne, ne_eq]
  intro hk
  exact h (by simpa [recordKeys, hk] using List.mem_map_of_mem Prod.fst hkv)

theorem recordKeys_append (r1 r2 : Row) :
    recordKeys (r1 ++ r2) = recordKeys r1 ++ recordKeys r2 := by
  simp [recordKeys]

theorem recordKeys_mapRowAt (c : String) (f : Cell → Cell) (row : Row) :
    recordKeys (mapRowAt c f row) = recordKeys row := by
  unfold recordKeys mapRowAt
  rw [List.map_map]
  apply List.map_congr_left
  intro kv _
  by_cases h : kv.1 = c <;> simp [h]

theorem lookup_mapRowAt_self (c : String) (f : Cell → Cell) (row : Row) :
    (mapRowAt c f row).lookup c = (row.lookup c).map f := by
  induction row with
  | nil => rfl
  | cons kv rest ih =>
    obtain ⟨k, v⟩ := kv
    by_cases hk : k = c
    · subst hk
      simp [mapRowAt, List.lookup_cons]
    · have hck : (c == k) = false := by simp [Ne.symm hk]
      simp only [mapRowAt, List.map_cons, if_neg hk, List.lookup_cons, hck]
      simpa only [mapRowAt] using ih

theorem lookup_mapRowAt_ne {c q : String} (f : Cell → Cell) (row : Row) (h : q ≠ c) :
    (mapRowAt c f row).lookup q = row.lookup q := by
  induction row with
  | nil => rfl
  | cons kv rest ih =>
    obtain ⟨k, v⟩ := kv
    by_cases hqk : q = k
    · subst hqk
      simp [mapRowAt, if_neg h, List.lookup_cons]
    · have hq : (q == k) = false := by simp [hqk]
      by_cases hk : k = c
      · subst hk
        simp only [mapRowAt, List.map_cons, if_pos, List.lookup_cons, hq]
        simpa only [mapRowAt] using ih
      · simp only [mapRowAt, List.map_cons, if_neg hk, List.lookup_cons, hq]
        simpa only [mapRowAt] using ih

theorem getCell_mapRowAt_self {c : String} {row : Row} (f : Cell → Cell)
    (h : c ∈ recordKeys row) :
    getCell (mapRowAt c f row) c = f (getCell row c) := by
  obtain ⟨v, hv⟩ := lookup_isSome_of_mem_keys h
  simp [getCell, lookup_mapRowAt_self, hv]

theorem getCell_mapRowAt_ne {c q : String} (f : Cell → Cell) (row : Row) (h : q ≠ c) :
    getCell (mapRowAt c f row) q = getCell row q := by
  simp [getCell, lookup_mapRowAt_ne f row h]

theorem getCell_append_left {row l : Row} {c : String} (h : c ∈ recordKeys row) :
    getCell (row ++ l) c = getCell row c := by
  obtain ⟨v, hv⟩ := lookup_isSome_of_mem_keys h
  simp [getCell, List.lookup_append, hv]

theorem getCell_append_single_self {row : Row} {c : String} {v : Cell}
    (h : c ∉ recordKeys row) :
    getCell (row ++ [(c, v)]) c = v := by
  simp [getCell, List.lookup_append, lookup_eq_none_of_not_mem_keys h]

theorem getCell_append_single_ne {row : Row} {c q : String} {v : Cell} (h : q ≠ c) :
    getCell (row ++ [(c, v)]) q = getCell row q := by
  have : ([(c, v)] : Row).lookup q = none := by
    rw [List.lookup_eq_none_iff]
    simp [h]
  rw [getCell, List.lookup_append, this, Option.or_none, getCell]

theorem getCell_of_not_mem_keys {row : Row} {c : String} (h : c ∉ recordKeys row) :
    getCell row c = Cell.null := by
  simp [getCell, lookup_eq_none_of_not_mem_keys h]

/-! ### Lemmas: key union -/

theorem mem_dedupAux : ∀ (l acc : List String) (k : String),
    k ∈ l.foldl (fun a s => if s ∈ a then a else a ++ [s]) acc ↔ k ∈ acc ∨ k ∈ l
  | [], acc, k => by simp
  | x :: xs, acc, k => by
    rw [List.foldl_cons, mem_dedupAux xs _ k]
    by_cases hx : x ∈ acc
    · simp only [if_pos hx, List.mem_cons]
      constructor
      · rintro (h | h)
        · exact Or.inl h
        · exact Or.inr (Or.inr h)
      · rintro (h | rfl | h)
        · exact Or.inl h
        · exact Or.inl hx
        · exact Or.inr h
    · simp only [if_neg hx, List.mem_append, List.mem_cons, List.mem_singleton]
      tauto

theorem mem_dedupFirst {l : List String} {k : String} : k ∈ dedupFirst l ↔ k ∈ l := by
  unfold dedupFirst
  rw [mem_dedupAux]
  simp

theorem mem_allKeys : ∀ {records : List Row} {k : String},
    k ∈ allKeys records ↔ ∃ r ∈ records, k ∈ recordKeys r
  | [], k => by simp [allKeys]
  | r :: rs, k => by
    simp [allKeys, @mem_allKeys rs]

theorem mem_unionKeys {records : List Row} {k : String} :
    k ∈ unionKeys records ↔ ∃ r ∈ records, k ∈ recordKeys r := by
  rw [unionKeys, mem_dedupFirst, mem_allKeys]

/-! ### Lemmas: cell coercions -/

theorem toNumericFillCell_isNum (v : Cell) : ∃ q, toNumericFillCell v = Cell.num q := by
  cases v with
  | null => exact ⟨0, rfl⟩
  | num q => exact ⟨q, rfl⟩
  | dt t => exact ⟨(t : ℚ), rfl⟩
  | str s =>
    rcases hp : parseNumber s with _ | q
    · exact ⟨0, by simp [toNumericFillCell, hp]⟩
    · exact ⟨q, by simp [toNumericFillCell, hp]⟩

theorem toNumericFillCell_idem (v : Cell) :
    toNumericFillCell (toNumericFillCell v) = toNumericFillCell v := by
  obtain ⟨q, hq⟩ := toNumericFillCell_isNum v
  rw [hq]
  rfl

theorem toDatetimeCell_shape (v : Cell) :
    toDatetimeCell v = Cell.null ∨ ∃ t, toDatetimeCell v = Cell.dt t := by
  cases v with
  | null => exact Or.inl rfl
  | num q => exact Or.inr ⟨q.floor, rfl⟩
  | dt t => exact Or.inr ⟨t, rfl⟩
  | str s =>
    rcases hp : parseDateTime s with _ | t
    · exact Or.inl (by simp [toDatetimeCell, hp])
    · exact Or.inr ⟨t, by simp [toDatetimeCell, hp]⟩

theorem toDatetimeCell_idem (v : Cell) :
    toDatetimeCell (toDatetimeCell v) = toDatetimeCell v := by
  rcases toDatetimeCell_shape v with h | ⟨t, h⟩ <;> rw [h] <;> rfl

/-! ### Lemmas: well-formedness -/

theorem toDataFrame_cols (records : List Row) :
    (toDataFrame records).cols = unionKeys records := rfl

theorem toDataFrame_rows_length (records : List Row) :
    (toDataFrame records).rows.length = records.length := by
  simp [toDataFrame]

theorem toDataFrame_WF (records : List Row) : (toDataFrame records).WF := by
  intro row hrow
  simp only [toDataFrame, List.mem_map] at hrow
  obtain ⟨r, _, rfl⟩ := hrow
  unfold recordKeys
  rw [List.map_map]
  exact List.map_id _

theorem mapCol_cols (df : DataFrame) (c : String) (f : Cell → Cell) :
    (mapCol df c f).cols = df.cols := rfl

theorem mapCol_WF {df : DataFrame} (h : df.WF) (c : String) (f : Cell → Cell) :
    (mapCol df c f).WF := by
  intro row hrow
  simp only [mapCol, List.mem_map] at hrow
  obtain ⟨r, hr, rfl⟩ := hrow
  rw [recordKeys_mapRowAt, mapCol_cols]
  exact h r hr

theorem addCol_WF {df : DataFrame} (h : df.WF) (c : String) (v : Cell) :
    (addCol df c v).WF := by
  intro row hrow
  simp only [addCol, List.mem_map] at hrow
  obtain ⟨r, hr, rfl⟩ := hrow
  rw [recordKeys_append]
  show recordKeys r ++ [c] = df.cols ++ [c]
  rw [h r hr]

theorem sortByCol_cols (df : DataFrame) (c : String) : (sortByCol df c).cols = df.cols := rfl

theorem mem_sortByCol_rows {df : DataFrame} {c : String} {row : Row} :
    row ∈ (sortByCol df c).rows ↔ row ∈ df.rows := by
  simp [sortByCol]

theorem sortByCol_WF {df : DataFrame} (h : df.WF) (c : String) : (sortByCol df c).WF := by
  intro row hrow
  exact h row (mem_sortByCol_rows.mp hrow)

theorem sortByCol_rows_length (df : DataFrame) (c : String) :
    (sortByCol df c).rows.length = df.rows.length := by
  simp [sortByCol]

theorem processCol_WF {df : DataFrame} (h : df.WF) (c : String) : (processCol df c).WF := by
  unfold processCol
  by_cases hm : c ∈ df.cols
  · rw [if_pos hm]
    exact mapCol_WF h c toNumericFillCell
  · rw [if_neg hm]
    exact addCol_WF h c (Cell.num 0)

/-! ### Lemmas: columns and lengths through the consumption loop -/

theorem processCol_rows_pos {df : DataFrame} {c : String} (h : c ∈ df.cols) :
    (processCol df c).rows = df.rows.map (mapRowAt c toNumericFillCell) := by
  rw [processCol, if_pos h]
  rfl

theorem processCol_rows_neg {df : DataFrame} {c : String} (h : c ∉ df.cols) :
    (processCol df c).rows = df.rows.map (fun r => r ++ [(c, Cell.num 0)]) := by
  rw [processCol, if_neg h]
  rfl

theorem processCol_cols (df : DataFrame) (c : String) :
    (processCol df c).cols = df.cols ∨ (processCol df c).cols = df.cols ++ [c] := by
  unfold processCol
  by_cases hm : c ∈ df.cols
  · rw [if_pos hm]
    exact Or.inl rfl
  · rw [if_neg hm]
    exact Or.inr rfl

theorem mem_processCol_cols_of_mem {df : DataFrame} {q : String} (h : q ∈ df.cols)
    (c : String) : q ∈ (processCol df c).cols := by
  rcases processCol_cols df c with hc | hc <;> rw [hc] <;> simp [h]

theorem self_mem_processCol_cols (df : DataFrame) (c : String) :
    c ∈ (processCol df c).cols := by
  unfold processCol
  by_cases hm : c ∈ df.cols
  · rw [if_pos hm]
    exact hm
  · rw [if_neg hm]
    simp [addCol]

theorem processCol_rows_length (df : DataFrame) (c : String) :
    (processCol df c).rows.length = df.rows.length := by
  by_cases hm : c ∈ df.cols
  · rw [processCol_rows_pos hm, List.length_map]
  · rw [processCol_rows_neg hm, List.length_map]

theorem mem_foldl_processCol_cols_of_mem :
    ∀ (L : List String) (df : DataFrame) (q : String),
      q ∈ df.cols → q ∈ (L.foldl processCol df).cols
  | [], _, _, h => h
  | c :: L, df, q, h =>
      mem_foldl_processCol_cols_of_mem L _ q (mem_processCol_cols_of_mem h c)

theorem mem_foldl_processCol_cols :
    ∀ (L : List String) (df : DataFrame) (q : String),
      q ∈ L → q ∈ (L.foldl processCol df).cols
  | [], _, q, h => absurd h (List.not_mem_nil q)
  | c :: L, df, q, h => by
      rw [List.foldl_cons]
      rcases List.mem_cons.mp h with rfl | h₂
      · exact mem_foldl_processCol_cols_of_mem L _ q (self_mem_processCol_cols df q)
      · exact mem_foldl_processCol_cols L _ q h₂

theorem foldl_processCol_cols_sub :
    ∀ (L : List String) (df : DataFrame) (q : String),
      q ∈ (L.foldl processCol df).cols → q ∈ df.cols ∨ q ∈ L
  | [], _, _, h => Or.inl h
  | c :: L, df, q, h => by
      rw [List.foldl_cons] at h
      rcases foldl_processCol_cols_sub L _ q h with h₂ | h₂
      · rcases processCol_cols df c with hc | hc <;> rw [hc] at h₂
        · exact Or.inl h₂
        · rcases List.mem_append.mp h₂ with h₃ | h₃
          · exact Or.inl h₃
          · simp at h₃
            exact Or.inr (by simp [h₃])
      · exact Or.inr (by simp [h₂])

theorem foldl_processCol_rows_length :
    ∀ (L : List String) (df : DataFrame),
      (L.foldl processCol df).rows.length = df.rows.length
  | [], _ => rfl
  | c :: L, df => by
      rw [List.foldl_cons, foldl_processCol_rows_length L, processCol_rows_length]

theorem foldl_processCol_WF :
    ∀ (L : List String) {df : DataFrame}, df.WF → (L.foldl processCol df).WF
  | [], _, h => h
  | c :: L, df, h => by
      rw [List.foldl_cons]
      exact foldl_processCol_WF L (processCol_WF h c)

theorem process_data_rows_length (df : DataFrame) :
    (process_data df).rows.length = df.rows.length := by
  unfold process_data
  by_cases he : df.isEmpty
  · rw [if_pos he]
  · rw [if_neg he, foldl_processCol_rows_length]
    by_cases hd : "date_heure" ∈ df.cols
    · rw [if_pos hd, sortByCol_rows_length]
      simp [mapCol]
    · rw [if_neg hd]

theorem process_data_of_isEmpty {df : DataFrame} (h : df.isEmpty = true) :
    process_data df = df := by
  rw [process_data, if_pos h]

/-! ### Lemmas: row predicates through the processing pass -/

theorem rowDatesParsed_after_parse (row : Row) :
    RowDatesParsed (mapRowAt "date_heure" toDatetimeCell row) := by
  intro kv hkv hd
  simp only [mapRowAt, List.mem_map] at hkv
  obtain ⟨kv0, hkv0, heq⟩ := hkv
  by_cases h0 : kv0.1 = "date_heure"
  · rw [if_pos h0] at heq
    subst heq
    exact toDatetimeCell_idem _
  · rw [if_neg h0] at heq
    subst heq
    exact absurd hd h0

theorem rowDatesParsed_mapRowAt {row : Row} {c : String} (f : Cell → Cell)
    (hc : c ≠ "date_heure") (h : RowDatesParsed row) :
    RowDatesParsed (mapRowAt c f row) := by
  intro kv hkv hd
  simp only [mapRowAt, List.mem_map] at hkv
  obtain ⟨kv0, hkv0, heq⟩ := hkv
  by_cases h0 : kv0.1 = c
  · rw [if_pos h0] at heq
    subst heq
    exact absurd (h0.symm.trans hd) hc
  · rw [if_neg h0] at heq
    subst heq
    exact h kv0 hkv0 hd

theorem rowDatesParsed_append {row : Row} {c : String} (v : Cell)
    (h : RowDatesParsed row) (hc : c ≠ "date_heure") :
    RowDatesParsed (row ++ [(c, v)]) := by
  intro kv hkv hd
  rcases List.mem_append.mp hkv with h1 | h1
  · exact h kv h1 hd
  · simp only [List.mem_singleton] at h1
    subst h1
    exact absurd hd hc

theorem rowColFilled_after_fill (q : String) (row : Row) :
    RowColFilled q (mapRowAt q toNumericFillCell row) := by
  intro kv hkv hd
  simp only [mapRowAt, List.mem_map] at hkv
  obtain ⟨kv0, hkv0, heq⟩ := hkv
  by_cases h0 : kv0.1 = q
  · rw [if_pos h0] at heq
    subst heq
    exact toNumericFillCell_idem _
  · rw [if_neg h0] at heq
    subst heq
    exact absurd hd h0

theorem rowColFilled_mapRowAt {q c : String} {row : Row} (h : RowColFilled q row) :
    RowColFilled q (mapRowAt c toNumericFillCell row) := by
  intro kv hkv hd
  simp only [mapRowAt, List.mem_map] at hkv
  obtain ⟨kv0, hkv0, heq⟩ := hkv
  by_cases h0 : kv0.1 = c
  · rw [if_pos h0] at heq
    subst heq
    exact toNumericFillCell_idem _
  · rw [if_neg h0] at heq
    subst heq
    exact h kv0 hkv0 hd

theorem rowColFilled_append {q c : String} {row : Row} {v : Cell}
    (h : RowColFilled q row) (hv : toNumericFillCell v = v) :
    RowColFilled q (row ++ [(c, v)]) := by
  intro kv hkv hd
  rcases List.mem_append.mp hkv with h1 | h1
  · exact h kv h1 hd
  · simp only [List.mem_singleton] at h1
    subst h1
    exact hv

theorem datesParsed_processCol {df : DataFrame} {c : String} (hc : c ≠ "date_heure")
    (h : ∀ row ∈ df.rows, RowDatesParsed row) :
    ∀ row ∈ (processCol df c).rows, RowDatesParsed row := by
  by_cases hm : c ∈ df.cols
  · rw [processCol_rows_pos hm]
    intro row hrow
    simp only [List.mem_map] at hrow
    obtain ⟨r, hr, rfl⟩ := hrow
    exact rowDatesParsed_mapRowAt _ hc (h r hr)
  · rw [processCol_rows_neg hm]
    intro row hrow
    simp only [List.mem_map] at hrow
    obtain ⟨r, hr, rfl⟩ := hrow
    exact rowDatesParsed_append _ (h r hr) hc

theorem filled_processCol_preserve {df : DataFrame} {q c : String}
    (h : ∀ row ∈ df.rows, RowColFilled q row) :
    ∀ row ∈ (processCol df c).rows, RowColFilled q row := by
  by_cases hm : c ∈ df.cols
  · rw [processCol_rows_pos hm]
    intro row hrow
    simp only [List.mem_map] at hrow
    obtain ⟨r, hr, rfl⟩ := hrow
    exact rowColFilled_mapRowAt (h r hr)
  · rw [processCol_rows_neg hm]
    intro row hrow
    simp only [List.mem_map] at hrow
    obtain ⟨r, hr, rfl⟩ := hrow
    exact rowColFilled_append (h r hr) rfl

theorem filled_processCol_self {df : DataFrame} (hWF : df.WF) (q : String) :
    ∀ row ∈ (processCol df q).rows, RowColFilled q row := by
  by_cases hm : q ∈ df.cols
  · rw [processCol_rows_pos hm]
    intro row hrow
    simp only [List.mem_map] at hrow
    obtain ⟨r, hr, rfl⟩ := hrow
    exact rowColFilled_after_fill q r
  · rw [processCol_rows_neg hm]
    intro row hrow
    simp only [List.mem_map] at hrow
    obtain ⟨r, hr, rfl⟩ := hrow
    intro kv hkv hd
    rcases List.mem_append.mp hkv with h1 | h1
    · have hq : q ∈ recordKeys r := by
        have h2 := List.mem_map_of_mem Prod.fst h1
        rw [hd] at h2
        exact h2
      rw [hWF r hr] at hq
      exact absurd hq hm
    · simp only [List.mem_singleton] at h1
      subst h1
      rfl

theorem datesParsed_foldl :
    ∀ (L : List String) {df : DataFrame},
      (∀ c ∈ L, c ≠ "date_heure") →
      (∀ row ∈ df.rows, RowDatesParsed row) →
      ∀ row ∈ (L.foldl processCol df).rows, RowDatesParsed row
  | [], _, _, h => h
  | c :: L, df, hL, h => by
      rw [List.foldl_cons]
      exact datesParsed_foldl L (fun c₂ hc₂ => hL c₂ (List.mem_cons_of_mem _ hc₂))
        (datesParsed_processCol (hL c (List.mem_cons_self _ _)) h)

theorem filled_foldl_preserve :
    ∀ (L : List String) {df : DataFrame} {q : String},
      (∀ row ∈ df.rows, RowColFilled q row) →
      ∀ row ∈ (L.foldl processCol df).rows, RowColFilled q row
  | [], _, _, h => h
  | _ :: L, _, _, h => by
      rw [List.foldl_cons]
      exact filled_foldl_preserve L (filled_processCol_preserve h)

theorem filled_foldl :
    ∀ (L : List String) {df : DataFrame} {q : String}, df.WF → q ∈ L →
      ∀ row ∈ (L.foldl processCol df).rows, RowColFilled q row
  | [], _, _, _, hq => absurd hq (List.not_mem_nil _)
  | c :: L, df, q, hWF, hq => by
      rw [List.foldl_cons]
      rcases List.mem_cons.mp hq with rfl | h₂
      · exact filled_foldl_preserve L (filled_processCol_self hWF q)
      · exact filled_foldl L (processCol_WF hWF c) h₂

/-! ### Lemmas: sortedness through the processing pass -/

theorem rowKey_mapRowAt_ne {c q : String} (f : Cell → Cell) (row : Row) (h : q ≠ c) :
    rowKey q (mapRowAt c f row) = rowKey q row := by
  unfold rowKey
  rw [getCell_mapRowAt_ne f row h]

theorem rowKey_append_single_ne {c q : String} {v : Cell} (row : Row) (h : q ≠ c) :
    rowKey q (row ++ [(c, v)]) = rowKey q row := by
  unfold rowKey
  rw [getCell_append_single_ne h]

theorem sorted_processCol {df : DataFrame} {c : String} (hc : c ≠ "date_heure")
    (h : List.Sorted (rowLE "date_heure") df.rows) :
    List.Sorted (rowLE "date_heure") (processCol df c).rows := by
  by_cases hm : c ∈ df.cols
  · rw [processCol_rows_pos hm]
    refine (List.pairwise_map).mpr (h.imp ?_)
    intro a b hab
    unfold rowLE at hab ⊢
    rw [rowKey_mapRowAt_ne _ _ (Ne.symm hc), rowKey_mapRowAt_ne _ _ (Ne.symm hc)]
    exact hab
  · rw [processCol_rows_neg hm]
    refine (List.pairwise_map).mpr (h.imp ?_)
    intro a b hab
    unfold rowLE at hab ⊢
    rw [rowKey_append_single_ne _ (Ne.symm hc), rowKey_append_single_ne _ (Ne.symm hc)]
    exact hab

theorem sorted_foldl :
    ∀ (L : List String) {df : DataFrame},
      (∀ c ∈ L, c ≠ "date_heure") →
      List.Sorted (rowLE "date_heure") df.rows →
      List.Sorted (rowLE "date_heure") (L.foldl processCol df).rows
  | [], _, _, h => h
  | c :: L, df, hL, h => by
      rw [List.foldl_cons]
      exact sorted_foldl L (fun c₂ hc₂ => hL c₂ (List.mem_cons_of_mem _ hc₂))
        (sorted_processCol (hL c (List.mem_cons_self _ _)) h)

/-! ### Lemmas: the processing pass -/

theorem isEmpty_false_iff {df : DataFrame} :
    df.isEmpty = false ↔ df.rows ≠ [] ∧ df.cols ≠ [] := by
  unfold DataFrame.isEmpty
  cases df.rows <;> cases df.cols <;> simp

theorem mem_process_data_cols {df : DataFrame} {q : String} (h : q ∈ df.cols) :
    q ∈ (process_data df).cols := by
  unfold process_data
  by_cases he : df.isEmpty
  · rw [if_pos he]
    exact h
  · rw [if_neg he]
    apply mem_foldl_processCol_cols_of_mem
    by_cases hd : "date_heure" ∈ df.cols
    · rw [if_pos hd, sortByCol_cols, mapCol_cols]
      exact h
    · rw [if_neg hd]
      exact h

theorem process_data_isEmpty_false {df : DataFrame} (h : df.isEmpty = false) :
    (process_data df).isEmpty = false := by
  rw [isEmpty_false_iff] at h ⊢
  obtain ⟨h1, h2⟩ := h
  constructor
  · intro hnil
    apply h1
    have h3 := process_data_rows_length df
    rw [hnil] at h3
    exact List.length_eq_zero.mp h3.symm
  · obtain ⟨q, hq⟩ := List.exists_mem_of_ne_nil _ h2
    exact List.ne_nil_of_mem (mem_process_data_cols hq)

theorem process_data_processed {df : DataFrame} (hWF : df.WF) (hne : df.isEmpty = false) :
    Processed (process_data df) := by
  have hdc : ∀ c ∈ consumption_cols, c ≠ "date_heure" := by decide
  unfold process_data
  rw [if_neg (by simp [hne])]
  by_cases hd : "date_heure" ∈ df.cols
  · rw [if_pos hd]
    have hWF2 : (sortByCol (mapCol df "date_heure" toDatetimeCell) "date_heure").WF :=
      sortByCol_WF (mapCol_WF hWF _ _) _
    have hparsed2 : ∀ row ∈ (sortByCol (mapCol df "date_heure" toDatetimeCell)
        "date_heure").rows, RowDatesParsed row := by
      intro row hrow
      rw [mem_sortByCol_rows] at hrow
      simp only [mapCol, List.mem_map] at hrow
      obtain ⟨r, hr, rfl⟩ := hrow
      exact rowDatesParsed_after_parse r
    refine ⟨foldl_processCol_WF _ hWF2, datesParsed_foldl _ hdc hparsed2,
      fun q hq => filled_foldl _ hWF2 hq,
      fun q hq => mem_foldl_processCol_cols _ _ q hq,
      fun _ => sorted_foldl _ hdc (List.sorted_insertionSort _ _)⟩
  · rw [if_neg hd]
    have hWF2 := foldl_processCol_WF consumption_cols hWF
    have hnodate : "date_heure" ∉ (consumption_cols.foldl processCol df).cols := by
      intro h2
      rcases foldl_processCol_cols_sub _ _ _ h2 with h3 | h3
      · exact hd h3
      · exact hdc _ h3 rfl
    refine ⟨hWF2, ?_, fun q hq => filled_foldl _ hWF hq,
      fun q hq => mem_foldl_processCol_cols _ _ q hq,
      fun hd2 => absurd hd2 hnodate⟩
    intro row hrow kv hkv hd1
    have h2 : kv.1 ∈ recordKeys row := List.mem_map_of_mem Prod.fst hkv
    rw [hWF2 row hrow, hd1] at h2
    exact absurd h2 hnodate

/-! ### Claim theorems

The idempotence of the processing pass (spec §8) is not settled here: on a
second pass the sort step re-sorts an already-sorted key column, and for tied
timestamp keys (duplicate timestamps, or several unparsable rows all marked
null) being a fixed point is exactly sort stability, which `sort_values` at
its default `kind='quicksort'` does not guarantee.  Whether a concrete tie is
actually permuted depends on the underlying sort implementation, not on this
repository's source, so the universal fixed-point statement is neither proved
nor refuted by this development. -/

/-- C1 (amended): for every non-empty raw record set in which at least one
record carries at least one field, normalization retains every row and each
of the five expected consumption columns is present in the schema and holds a
numeric value (never the null marker) on every row: present values are
coerced, coercion failures and per-row absences become zero, and a column
absent from the whole set is synthesized as zero. -/
theorem normalize_consumption_columns (records : List Row)
    (h : ∃ r ∈ records, r ≠ []) :
    (normalize records).rows.length = records.length ∧
    ∀ c ∈ consumption_cols, c ∈ (normalize records).cols ∧
      ∀ v ∈ getCol (normalize records) c, ∃ q, v = Cell.num q := by
  obtain ⟨r, hr, hrne⟩ := h
  have hne : (toDataFrame records).isEmpty = false := by
    rw [isEmpty_false_iff]
    constructor
    · intro hnil
      have h2 := toDataFrame_rows_length records
      rw [hnil] at h2
      have h3 : records = [] := List.length_eq_zero.mp h2.symm
      rw [h3] at hr
      exact absurd hr (List.not_mem_nil _)
    · obtain ⟨kv, hkv⟩ := List.exists_mem_of_ne_nil r hrne
      have hmem : kv.1 ∈ (toDataFrame records).cols := by
        rw [toDataFrame_cols, mem_unionKeys]
        exact ⟨r, hr, List.mem_map_of_mem Prod.fst hkv⟩
      exact List.ne_nil_of_mem hmem
  have hp : Processed (normalize records) :=
    process_data_processed (toDataFrame_WF records) hne
  constructor
  · rw [normalize, process_data_rows_length, toDataFrame_rows_length]
  · intro c hc
    refine ⟨hp.consumptionPresent c hc, ?_⟩
    intro v hv
    simp only [getCol, List.mem_map] at hv
    obtain ⟨row, hrow, rfl⟩ := hv
    have hkeys : c ∈ recordKeys row := by
      rw [hp.wf row hrow]
      exact hp.consumptionPresent c hc
    obtain ⟨v0, hv0⟩ := lookup_isSome_of_mem_keys hkeys
    have hfill : toNumericFillCell v0 = v0 :=
      hp.filled c hc row hrow (c, v0) (mem_of_lookup_eq_some hv0) rfl
    obtain ⟨q, hq⟩ := toNumericFillCell_isNum v0
    refine ⟨q, ?_⟩
    simp only [getCell, hv0, Option.getD_some]
    rw [← hfill]
    exact hq

/-- Witness for C1: the spec scenario — one record with a timestamp and the
total consumption given as the string "123.5", all other expected columns
missing — yields a one-row frame where every expected column is numeric,
`consommation_brute_totale` is 123.5, and the others are zero. -/
theorem normalize_consumption_columns_witness :
    ((normalize [specScenarioRecord]).rows.length = 1 ∧
      ∀ c ∈ consumption_cols, c ∈ (normalize [specScenarioRecord]).cols ∧
        ∀ v ∈ getCol (normalize [specScenarioRecord]) c, ∃ q, v = Cell.num q) ∧
    getCol (normalize [specScenarioRecord]) "consommation_brute_totale" =
      [Cell.num (247 / 2)] ∧
    getCol (normalize [specScenarioRecord]) "consommation_brute_gaz_totale" =
      [Cell.num 0] :=
  ⟨normalize_consumption_columns [specScenarioRecord]
      ⟨specScenarioRecord, by simp, by simp [specScenarioRecord]⟩,
    by with_unfolding_all decide, by with_unfolding_all decide⟩

/-- Counterexample to C1 as stated: the record set made of a single record
with no fields is non-empty, yet the raw frame it yields has one row and no
columns, counts as empty, and the processing pass returns it untouched —
no consumption column is synthesized. -/
theorem normalize_consumption_columns_cex :
    ¬ (∀ records : List Row, records ≠ [] →
        ∀ c ∈ consumption_cols, c ∈ (normalize records).cols ∧
          ∀ v ∈ getCol (normalize records) c, ∃ q, v = Cell.num q) := by
  intro h
  have h2 := (h [[]] (by simp) "consommation_brute_totale" (by decide)).1
  have h3 : (normalize [[]]).cols = [] := by decide
  rw [h3] at h2
  exact absurd h2 (List.not_mem_nil _)

/-- C2: for every record set whose normalized frame has at least one row with
a parsable timestamp, the normalized rows are sorted ascending by the parsed
timestamp with null timestamps placed last, every row is retained, and the
timestamp cell of every row is either a parsed date-time or the null
marker. -/
theorem normalize_sorted_by_timestamp (records : List Row)
    (h : ∃ row ∈ (normalize records).rows, (rowKey "date_heure" row).isSome) :
    List.Sorted (rowLE "date_heure") (normalize records).rows ∧
    (normalize records).rows.length = records.length ∧
    ∀ row ∈ (normalize records).rows,
      getCell row "date_heure" = Cell.null ∨ ∃ t, getCell row "date_heure" = Cell.dt t := by
  obtain ⟨row0, hrow0, hkey⟩ := h
  have hne : (toDataFrame records).isEmpty = false := by
    by_contra hcontra
    rw [Bool.not_eq_false] at hcontra
    rw [normalize, process_data_of_isEmpty hcontra] at hrow0
    have hor : (toDataFrame records).rows.isEmpty = true ∨
        (toDataFrame records).cols.isEmpty = true := by
      have h4 := hcontra
      unfold DataFrame.isEmpty at h4
      exact Bool.or_eq_true_iff.mp h4
    rcases hor with h1 | h1
    · rw [List.isEmpty_iff] at h1
      rw [h1] at hrow0
      exact absurd hrow0 (List.not_mem_nil _)
    · rw [List.isEmpty_iff] at h1
      have h5 : row0 = [] := by
        have hWF := toDataFrame_WF records row0 hrow0
        rw [h1] at hWF
        unfold recordKeys at hWF
        exact List.map_eq_nil.mp hWF
      rw [h5] at hkey
      simp [rowKey, getCell] at hkey
  have hp : Processed (normalize records) :=
    process_data_processed (toDataFrame_WF records) hne
  have hd : "date_heure" ∈ (normalize records).cols := by
    by_contra hnd
    have h6 : getCell row0 "date_heure" = Cell.null := by
      apply getCell_of_not_mem_keys
      rw [hp.wf row0 hrow0]
      exact hnd
    rw [rowKey, h6] at hkey
    simp at hkey
  refine ⟨hp.sorted hd,
    by rw [normalize, process_data_rows_length, toDataFrame_rows_length], ?_⟩
  intro row hrow
  by_cases hk : "date_heure" ∈ recordKeys row
  · obtain ⟨v, hv⟩ := lookup_isSome_of_mem_keys hk
    have hparsed := hp.datesParsed row hrow ("date_heure", v) (mem_of_lookup_eq_some hv) rfl
    have hshape := toDatetimeCell_shape v
    rw [hparsed] at hshape
    have hcell : getCell row "date_heure" = v := by simp [getCell, hv]
    rw [hcell]
    exact hshape
  · exact Or.inl (getCell_of_not_mem_keys hk)

/-- Witness for C2: three records arriving out of chronological order, one of
them with an unparsable timestamp, normalize to a frame sorted ascending with
the unparsable row retained and marked null. -/
theorem normalize_sorted_by_timestamp_witness :
    List.Sorted (rowLE "date_heure") (normalize mixedRecords).rows ∧
    (normalize mixedRecords).rows.length = 3 ∧
    ∀ row ∈ (normalize mixedRecords).rows,
      getCell row "date_heure" = Cell.null ∨ ∃ t, getCell row "date_heure" = Cell.dt t :=
  normalize_sorted_by_timestamp mixedRecords (by decide)

/-- C3: requesting statistics on a column absent from the frame's schema
surfaces the distinct column-not-found condition with its message; no
statistics outcome (and in particular no zero statistic) is produced. -/
theorem computeStats_column_not_found (df : DataFrame) (c : String) (h : c ∉ df.cols) :
    computeStats df c = StatsOutcome.columnNotFound
        ("La colonne " ++ c ++ " est introuvable pour le calcul des statistiques.") ∧
    ∀ m s v mx mn, computeStats df c ≠ StatsOutcome.stats m s v mx mn := by
  constructor
  · rw [computeStats, if_neg h]
  · intro m s v mx mn hcontra
    rw [computeStats, if_neg h] at hcontra
    exact StatsOutcome.noConfusion hcontra

/-- Witness for C3: the expected statistics column is absent from a one-row
frame holding an unrelated column, and the column-not-found condition is
returned. -/
theorem computeStats_column_not_found_witness :
    computeStats sampleDf "consommation_brute_totale" = StatsOutcome.columnNotFound
        ("La colonne " ++ "consommation_brute_totale" ++
          " est introuvable pour le calcul des statistiques.") ∧
    ∀ m s v mx mn, computeStats sampleDf "consommation_brute_totale" ≠
        StatsOutcome.stats m s v mx mn :=
  computeStats_column_not_found sampleDf "consommation_brute_totale" (by decide)

/-- The console messages of the two exception handlers are distinct: one
starts with an E, the other with an A. -/
theorem excMsg_distinct (c1 c2 : String) :
    excMsg (PyExc.requestException c1) ≠ excMsg (PyExc.otherException c2) := by
  intro h
  have h2 := congrArg (fun s => s.data.head?) h
  simp only [excMsg, String.data_append, List.head?_append] at h2
  have e1 : ("Error fetching data from API: ").data.head? = some 'E' := rfl
  have e2 : ("An unexpected error occurred during API fetch: ").data.head? = some 'A' := rfl
  rw [e1, e2] at h2
  simp at h2

/-- C4: no exception propagates past the fetch boundary.  Whenever the try
block raises, the handler catches it, returns false with an emptied frame,
and reports the exception through the handler message of its family — the
request-exception handler and the catch-all handler producing categorically
distinct messages. -/
theorem fetch_exception_boundary (st : DataFrame) (env : FetchEnv) (e : PyExc)
    (h : fetchBody env = Except.error e) :
    fetch_data_from_api st env = ⟨false, DataFrame.empty, excMsg e⟩ ∧
    ∀ c1 c2 : String, excMsg (PyExc.requestException c1) ≠ excMsg (PyExc.otherException c2) := by
  refine ⟨?_, fun c1 c2 => excMsg_distinct c1 c2⟩
  unfold fetch_data_from_api
  rw [h]
  cases e <;> rfl

/-- Witness for C4: a raised request exception is caught and reported as the
transport-failure message with a false return and an emptied frame. -/
theorem fetch_exception_boundary_witness :
    fetch_data_from_api DataFrame.empty
        (FetchEnv.raises (PyExc.requestException "timeout")) =
      ⟨false, DataFrame.empty, excMsg (PyExc.requestException "timeout")⟩ ∧
    ∀ c1 c2 : String, excMsg (PyExc.requestException c1) ≠ excMsg (PyExc.otherException c2) :=
  fetch_exception_boundary DataFrame.empty
    (FetchEnv.raises (PyExc.requestException "timeout")) (PyExc.requestException "timeout") rfl

/-- C5: the frame is fully replaced on every fetch.  A true return means the
frame is exactly the processed records of this response, independent of any
earlier frame; a false return means the frame was reset to empty — no rows
from a previous fetch survive. -/
theorem fetch_replaces_dataset (st : DataFrame) (env : FetchEnv) :
    ((fetch_data_from_api st env).retVal = true →
      ∃ r rs, env = FetchEnv.returns (some (r :: rs)) ∧
        (fetch_data_from_api st env).dataframe = process_data (toDataFrame (r :: rs))) ∧
    ((fetch_data_from_api st env).retVal = false →
      (fetch_data_from_api st env).dataframe = DataFrame.empty) := by
  obtain e | o := env
  · obtain c | c := e
    · exact ⟨fun h => by simp [fetch_data_from_api, fetchBody] at h, fun _ => rfl⟩
    · exact ⟨fun h => by simp [fetch_data_from_api, fetchBody] at h, fun _ => rfl⟩
  · obtain _ | rs := o
    · exact ⟨fun h => by simp [fetch_data_from_api, fetchBody] at h, fun _ => rfl⟩
    · obtain _ | ⟨r, rs⟩ := rs
      · exact ⟨fun h => by simp [fetch_data_from_api, fetchBody] at h, fun _ => rfl⟩
      · exact ⟨fun _ => ⟨r, rs, rfl, rfl⟩,
          fun h => by simp [fetch_data_from_api, fetchBody] at h⟩

/-- Witness for C5: a fetch whose response carries no results resets a
previously non-empty frame to the empty frame. -/
theorem fetch_replaces_dataset_witness :
    (fetch_data_from_api sampleDf (FetchEnv.returns none)).dataframe = DataFrame.empty :=
  (fetch_replaces_dataset sampleDf (FetchEnv.returns none)).2 rfl

/-- C8 as stated is false at this concrete input: a fetch invocation does
mutate the Tabular Dataset — a response without results resets the previously
non-empty frame. -/
theorem fetch_no_mutation_cex :
    (fetch_data_from_api sampleDf (FetchEnv.returns none)).dataframe ≠ sampleDf := by
  with_unfolding_all decide

/-- C8 (amended): the fetch operation replaces the Tabular Dataset on every
invocation; beyond the network call and console message its only effect is
this replacement, whose result depends solely on the response and never on
the previously held dataset. -/
theorem fetch_state_independent (st st2 : DataFrame) (env : FetchEnv) :
    fetch_data_from_api st env = fetch_data_from_api st2 env := rfl

/-- C10 as stated is false at this concrete input: a response whose results
list holds one fieldless record makes fetch return true while the stored
frame (one row, zero columns) still counts as empty. -/
theorem fetch_retVal_iff_cex :
    ¬ (∀ (st : DataFrame) (env : FetchEnv),
        (fetch_data_from_api st env).retVal = true ↔
          (fetch_data_from_api st env).dataframe.isEmpty = false) := by
  intro h
  exact absurd ((h DataFrame.empty (FetchEnv.returns (some [[]]))).mp rfl) (by decide)

/-- C10 (amended): a false return always leaves the empty frame, and a
non-empty frame is only reached through a true return; but a true return
with an empty frame is possible, when the results list is non-empty yet
every record is fieldless, so the raw frame has rows and no columns, counts
as empty, and processing is skipped. -/
theorem fetch_retVal_dataset (st : DataFrame) (env : FetchEnv) :
    ((fetch_data_from_api st env).retVal = false →
      (fetch_data_from_api st env).dataframe.isEmpty = true) ∧
    ((fetch_data_from_api st env).dataframe.isEmpty = false →
      (fetch_data_from_api st env).retVal = true) := by
  obtain e | o := env
  · obtain c | c := e
    · exact ⟨fun _ => rfl, fun h => by
        simp [fetch_data_from_api, fetchBody, DataFrame.empty, DataFrame.isEmpty] at h⟩
    · exact ⟨fun _ => rfl, fun h => by
        simp [fetch_data_from_api, fetchBody, DataFrame.empty, DataFrame.isEmpty] at h⟩
  · obtain _ | rs := o
    · exact ⟨fun _ => rfl, fun h => by
        simp [fetch_data_from_api, fetchBody, DataFrame.empty, DataFrame.isEmpty] at h⟩
    · obtain _ | ⟨r, rs⟩ := rs
      · exact ⟨fun _ => rfl, fun h => by
          simp [fetch_data_from_api, fetchBody, DataFrame.empty, DataFrame.isEmpty] at h⟩
      · exact ⟨fun h => by simp [fetch_data_from_api, fetchBody] at h, fun _ => rfl⟩

/-- Witness for C10 (amended): a failed fetch leaves the empty frame. -/
theorem fetch_retVal_dataset_witness :
    (fetch_data_from_api sampleDf
        (FetchEnv.raises (PyExc.otherException "boom"))).dataframe.isEmpty = true :=
  (fetch_retVal_dataset sampleDf (FetchEnv.raises (PyExc.otherException "boom"))).1 rfl

/-- C7: exporting an empty dataset fails fast with the nothing-to-export
result as a boolean, a filesystem failure during the write of a non-empty
dataset is caught and reported as a false result, and a successful write
returns true — no case escapes as an unhandled error. -/
theorem export_to_csv_spec (df : DataFrame) (filepath : String) (fs : Except String Unit) :
    (df.isEmpty = true → export_to_csv df filepath fs = (false, "No data to export.")) ∧
    (∀ e, fs = Except.error e → df.isEmpty = false →
      export_to_csv df filepath fs = (false, "Error exporting data to CSV: " ++ e)) ∧
    (df.isEmpty = false → fs = Except.ok () →
      export_to_csv df filepath fs = (true, "Data exported successfully to " ++ filepath)) := by
  refine ⟨?_, ?_, ?_⟩
  · intro h
    unfold export_to_csv
    rw [if_pos h]
  · intro e he h
    unfold export_to_csv
    rw [if_neg (by simp [h]), he]
  · intro h hok
    unfold export_to_csv
    rw [if_neg (by simp [h]), hok]

/-- Witness for C7: the empty frame is refused with the nothing-to-export
message, and a permission failure on a non-empty frame is caught and
reported as a false result. -/
theorem export_to_csv_spec_witness :
    export_to_csv DataFrame.empty "out.csv" (Except.ok ()) = (false, "No data to export.") ∧
    export_to_csv sampleDf "out.csv" (Except.error "Permission denied") =
      (false, "Error exporting data to CSV: " ++ "Permission denied") :=
  ⟨(export_to_csv_spec DataFrame.empty "out.csv" (Except.ok ())).1 rfl,
    (export_to_csv_spec sampleDf "out.csv" (Except.error "Permission denied")).2.1
      "Permission denied" rfl (by decide)⟩

/-- Sum of squared deviations, expanded. -/
theorem sum_sq_dev (xs : List ℚ) (m : ℚ) :
    (xs.map (fun x => (x - m) ^ 2)).sum =
      (xs.map (fun x => x ^ 2)).sum - 2 * m * xs.sum + (xs.length : ℚ) * m ^ 2 := by
  induction xs with
  | nil => simp
  | cons x xs ih =>
    simp only [List.map_cons, List.sum_cons, List.length_cons, ih]
    push_cast
    ring

/-- The sample variance at two or more values, in closed form. -/
theorem series_var_eq {xs : List ℚ} (h : 2 ≤ xs.length) :
    series_var xs = some ((xs.map (fun x => (x - xs.sum / (xs.length : ℚ)) ^ 2)).sum /
      ((xs.length : ℚ) - 1)) := by
  rw [series_var, if_neg (by omega)]

/-- C6: standard deviation and variance follow the sample (N − 1 denominator)
convention — at two or more values the variance satisfies the sample-variance
identity v·N·(N−1) = N·Σx² − (Σx)² — and with fewer than two values both are
the undefined marker (pandas NaN), never a numeric zero; the statistics block
then exposes undefined std and variance fields. -/
theorem stats_sample_convention :
    (∀ xs : List ℚ, xs.length < 2 → series_var xs = none ∧ series_std xs = none) ∧
    (∀ xs : List ℚ, 2 ≤ xs.length → ∃ v, series_var xs = some v ∧
      v * ((xs.length : ℚ) * ((xs.length : ℚ) - 1)) =
        (xs.length : ℚ) * (xs.map (fun x => x ^ 2)).sum - xs.sum ^ 2) ∧
    (∀ (df : DataFrame) (c : String), c ∈ df.cols → (colNumValues df c).length < 2 →
      computeStats df c = StatsOutcome.stats (series_mean (colNumValues df c)) none none
        (series_max (colNumValues df c)) (series_min (colNumValues df c))) := by
  refine ⟨?_, ?_, ?_⟩
  · intro xs h
    refine ⟨by rw [series_var, if_pos h], ?_⟩
    rw [series_std, series_var, if_pos h]
    rfl
  · intro xs h
    refine ⟨_, series_var_eq h, ?_⟩
    have h2 : (2 : ℚ) ≤ (xs.length : ℚ) := by exact_mod_cast h
    have hn : (xs.length : ℚ) ≠ 0 := by linarith
    have hn1 : (xs.length : ℚ) - 1 ≠ 0 := by
      intro h0
      rw [sub_eq_zero] at h0
      rw [h0] at h2
      norm_num at h2
    rw [sum_sq_dev]
    field_simp
    ring
  · intro df c hmem hlen
    rw [computeStats, if_pos hmem]
    have hv : series_var (colNumValues df c) = none := by
      rw [series_var, if_pos hlen]
    have hs : series_std (colNumValues df c) = none := by
      rw [series_std, hv]
      rfl
    rw [hv, hs]

/-- Witness for C6: a single-value series has undefined variance and standard
deviation, and the statistics block on a one-row frame exposes both as the
undefined marker. -/
theorem stats_sample_convention_witness :
    (series_var [(5 : ℚ)] = none ∧ series_std [(5 : ℚ)] = none) ∧
    computeStats sampleDf "autre" = StatsOutcome.stats
        (series_mean (colNumValues sampleDf "autre")) none none
        (series_max (colNumValues sampleDf "autre"))
        (series_min (colNumValues sampleDf "autre")) :=
  ⟨stats_sample_convention.1 [(5 : ℚ)] (by decide),
    stats_sample_convention.2.2 sampleDf "autre" (by decide) (by decide)⟩

end Acquisition
